import Mathlib

/-!
Verification of the kraken tracker announce handler
(src/tracker/service/tracker.go, `GetAnnounceHandler`).

The handler-internal logic (query parsing, numeric validation, peer-record
construction, pipeline sequencing, error mapping) is embedded directly from
the Go source.  The external collaborators (storage.Storage, the peer
handout policy, and the bencode library) are modelled as oracles supplied by
a `Ports` record; the handler records every outbound call in a trace of
`Event`s so that call ordering and call counts can be stated.
-/

namespace Kraken

/-- Value of a non-empty, all-decimal-digit character list, as in the digit
loop of Go strconv.ParseUint with base 10 (no sign, no underscores). -/
def digitsVal? (cs : List Char) : Option Nat :=
  match cs with
  | [] => none
  | _ =>
    cs.foldl
      (fun acc c =>
        match acc with
        | none => none
        | some n => if c.isDigit then some (n * 10 + (c.toNat - 48)) else none)
      (some 0)

/-- Go strconv.ParseUint(s, 10, 64): decimal digits only (a sign is a syntax
error), value must fit in 64 bits, otherwise an error (modelled as none). -/
def parseUint64 (s : String) : Option Nat :=
  match digitsVal? s.data with
  | none => none
  | some n => if n < 2 ^ 64 then some n else none

/-- Go strconv.ParseInt(s, 10, bits): one optional leading sign, then decimal
digits; the value must lie in the signed range of the given bit width,
which is asymmetric: -2^(bits-1) .. 2^(bits-1)-1. -/
def parseIntW (s : String) (bits : Nat) : Option Int :=
  match s.data with
  | [] => none
  | c :: rest =>
    let signDigits : Bool × List Char :=
      if c = '-' then (true, rest)
      else if c = '+' then (false, rest)
      else (false, c :: rest)
    match digitsVal? signDigits.2 with
    | none => none
    | some n =>
      if signDigits.1 then
        if n ≤ 2 ^ (bits - 1) then some (-(n : Int)) else none
      else
        if n < 2 ^ (bits - 1) then some (n : Int) else none

/-- Go int64(u) for a uint64 value u: two's-complement reinterpretation. -/
def int64ofUint64 (v : Nat) : Int :=
  if v < 2 ^ 63 then (v : Int) else (v : Int) - 2 ^ 64

/-- Modelled from the spec: utils.Int32toIP (not under src/) converts the
parsed 32-bit integer "to dotted-decimal form via standard IPv4 integer
decoding (network byte order, 4 octets)"; the four octets of the
two's-complement 32-bit image, most significant first, joined by dots. -/
def int32toIPString (v : Int) : String :=
  let u : Nat := (v % 4294967296).toNat
  toString (u / 16777216 % 256) ++ "." ++ toString (u / 65536 % 256) ++ "." ++
    toString (u / 256 % 256) ++ "." ++ toString (u % 256)

/-- Lowercase hexadecimal digit, as produced by Go encoding/hex. -/
def hexDigitChar (n : Nat) : Char :=
  if n < 10 then Char.ofNat (48 + n) else Char.ofNat (87 + n)

/-- Go hex.EncodeToString: two lowercase hex characters per input byte. -/
def hexEncodeBytes (bs : List Nat) : String :=
  String.mk
    (bs.foldr (fun b acc => hexDigitChar (b / 16 % 16) :: hexDigitChar (b % 16) :: acc) [])

/-- storage.PeerInfo: the canonical peer record built by the handler
(fields as constructed at src/tracker/service/tracker.go lines 138-149). -/
structure PeerInfo where
  infoHash : String
  peerID : String
  ip : String
  port : Int
  dc : String
  bytesUploaded : Int
  bytesDownloaded : Int
  bytesLeft : Int
  event : String
deriving Repr, DecidableEq

/-- AnnouncerResponse: interval plus the selected peer list (tracker.go
lines 43-46). -/
structure AnnouncerResponse where
  interval : Int
  peers : List PeerInfo
deriving Repr, DecidableEq

/-- The announce query parameters read at tracker.go lines 91-99.
info_hash and peer_id arrive as raw bytes; the numeric fields arrive as
strings still to be parsed. -/
structure AnnounceQuery where
  info_hash : List Nat
  peer_id : List Nat
  port : String
  ip : String
  dc : String
  downloaded : String
  uploaded : String
  left : String
  event : String
deriving Repr, DecidableEq

/-- One outbound call made by the handler to the repository or policy
ports, with the arguments it was given. -/
inductive Event where
  | update (peer : PeerInfo)
  | read (infoHash : String)
  | assign (ip : String) (dc : String)
  | sample (peers : List PeerInfo) (limit : Nat)
deriving Repr, DecidableEq

def Event.isUpdate : Event → Bool
  | .update _ => true
  | _ => false

def Event.isRead : Event → Bool
  | .read _ => true
  | _ => false

/-- Oracles for the external collaborators: datastore.Update, datastore.Read,
policy.AssignPeerPriority, policy.SamplePeers, and bencode.Marshal.
AssignPeerPriority mutates the peer slice in place in Go (the slice and its
length are unchanged), so its model returns only success or failure. -/
structure Ports where
  updateResult : PeerInfo → Except String Unit
  readResult : String → Except String (List PeerInfo)
  assignResult : String → String → List PeerInfo → Except String Unit
  sampleResult : List PeerInfo → Nat → Except String (List PeerInfo)
  encodeResult : AnnouncerResponse → Except String String

structure HttpResponse where
  status : Nat
  body : String
deriving Repr, DecidableEq

def statusOK : Nat := 200
def statusInternalServerError : Nat := 500

/-- The peer record the handler builds from the parsed fields
(tracker.go lines 136-149): info_hash and peer_id hex-encoded, the ip
integer rendered in dotted-decimal form, and left narrowed from uint64 to
int64. -/
def mkPeer (q : AnnounceQuery) (peerPort peerIPInt32 peerBytesDownloaded peerBytesUploaded : Int)
    (peerBytesLeft : Nat) : PeerInfo :=
  { infoHash := hexEncodeBytes q.info_hash
    peerID := hexEncodeBytes q.peer_id
    ip := int32toIPString peerIPInt32
    port := peerPort
    dc := q.dc
    bytesUploaded := peerBytesUploaded
    bytesDownloaded := peerBytesDownloaded
    bytesLeft := int64ofUint64 peerBytesLeft
    event := q.event }

/-- The post-validation pipeline (tracker.go lines 151-207):
Update, Read, AssignPeerPriority, SamplePeers (with limit = len(peerInfos)),
then bencode.Marshal.  Every failure maps to http.Error with
StatusInternalServerError; the trace records each port call made. -/
def announceCore (ports : Ports) (interval : Int) (peer : PeerInfo) :
    HttpResponse × List Event :=
  match ports.updateResult peer with
  | Except.error e => (⟨statusInternalServerError, e⟩, [Event.update peer])
  | Except.ok _ =>
    match ports.readResult peer.infoHash with
    | Except.error e =>
        (⟨statusInternalServerError, e⟩, [Event.update peer, Event.read peer.infoHash])
    | Except.ok peerInfos =>
      match ports.assignResult peer.ip peer.dc peerInfos with
      | Except.error e =>
          (⟨statusInternalServerError, e⟩,
           [Event.update peer, Event.read peer.infoHash, Event.assign peer.ip peer.dc])
      | Except.ok _ =>
        match ports.sampleResult peerInfos peerInfos.length with
        | Except.error e =>
            (⟨statusInternalServerError,
              "Could not apply peer handout sampling policy: " ++ e⟩,
             [Event.update peer, Event.read peer.infoHash, Event.assign peer.ip peer.dc,
              Event.sample peerInfos peerInfos.length])
        | Except.ok sampled =>
          match ports.encodeResult ⟨interval, sampled⟩ with
          | Except.error e =>
              (⟨statusInternalServerError, e⟩,
               [Event.update peer, Event.read peer.infoHash, Event.assign peer.ip peer.dc,
                Event.sample peerInfos peerInfos.length])
          | Except.ok body =>
              (⟨statusOK, body⟩,
               [Event.update peer, Event.read peer.infoHash, Event.assign peer.ip peer.dc,
                Event.sample peerInfos peerInfos.length])

/-- GetAnnounceHandler (tracker.go lines 86-207): parse port, ip, downloaded,
uploaded as signed integers (ip at 32 bits) and left as an unsigned 64-bit
integer; each parse failure returns http.Error(w, err.Error(),
http.StatusInternalServerError) before any record is built, otherwise build
the PeerInfo and run the pipeline. -/
def getAnnounceHandler (ports : Ports) (interval : Int) (q : AnnounceQuery) :
    HttpResponse × List Event :=
  match parseIntW q.port 64 with
  | none =>
      (⟨statusInternalServerError,
        "strconv.ParseInt: parsing " ++ q.port ++ ": invalid syntax"⟩, [])
  | some peerPort =>
    match parseIntW q.ip 32 with
    | none =>
        (⟨statusInternalServerError,
          "strconv.ParseInt: parsing " ++ q.ip ++ ": invalid syntax"⟩, [])
    | some peerIPInt32 =>
      match parseIntW q.downloaded 64 with
      | none =>
          (⟨statusInternalServerError,
            "strconv.ParseInt: parsing " ++ q.downloaded ++ ": invalid syntax"⟩, [])
      | some peerBytesDownloaded =>
        match parseIntW q.uploaded 64 with
        | none =>
            (⟨statusInternalServerError,
              "strconv.ParseInt: parsing " ++ q.uploaded ++ ": invalid syntax"⟩, [])
        | some peerBytesUploaded =>
          match parseUint64 q.left with
          | none =>
              (⟨statusInternalServerError,
                "strconv.ParseUint: parsing " ++ q.left ++ ": invalid syntax"⟩, [])
          | some peerBytesLeft =>
            announceCore ports interval
              (mkPeer q peerPort peerIPInt32 peerBytesDownloaded peerBytesUploaded peerBytesLeft)

/-- True when every numeric field of the query parses at its documented
width. -/
def wellFormedNums (q : AnnounceQuery) : Bool :=
  (parseIntW q.port 64).isSome && (parseIntW q.ip 32).isSome &&
    (parseIntW q.downloaded 64).isSome && (parseIntW q.uploaded 64).isSome &&
    (parseUint64 q.left).isSome

/-- True when some numeric field fails to parse at its documented width. -/
def anyParseFails (q : AnnounceQuery) : Bool :=
  (parseIntW q.port 64).isNone || (parseIntW q.ip 32).isNone ||
    (parseIntW q.downloaded 64).isNone || (parseIntW q.uploaded 64).isNone ||
    (parseUint64 q.left).isNone

/-- Bencoded byte string: length, colon, bytes. -/
def benString (s : String) : String := toString s.length ++ ":" ++ s

/-- Bencoded integer. -/
def benInt (n : Int) : String := "i" ++ toString n ++ "e"

/-- Modelled from the spec: storage.PeerInfo's bencode field tags are not
under src/; per the spec the encoder transmits "only protocol-visible peer
fields" (peer identity, address, port) and must not transmit the datacenter
tag or the byte counters.  Bencode dictionary keys appear sorted. -/
def encodePeer (p : PeerInfo) : String :=
  "d2:ip" ++ benString p.ip ++ "7:peer id" ++ benString p.peerID ++
    "4:port" ++ benInt p.port ++ "e"

/-- Bencoding of the AnnouncerResponse dictionary: interval then the peers
list (keys in sorted order). -/
def encodeAnnouncerResponse (r : AnnouncerResponse) : String :=
  "d8:interval" ++ benInt r.interval ++ "5:peers" ++ "l" ++
    String.join (r.peers.map encodePeer) ++ "e" ++ "e"

/-- Two peer records agreeing on every protocol-visible field. -/
def visibleEq (p q : PeerInfo) : Prop :=
  p.peerID = q.peerID ∧ p.ip = q.ip ∧ p.port = q.port

/-- Ports whose external calls all succeed: the repository accepts the
update and returns an empty swarm, the policy succeeds and is identity-like,
and encoding uses the modelled bencoder. -/
def emptyPorts : Ports :=
  { updateResult := fun _ => Except.ok ()
    readResult := fun _ => Except.ok []
    assignResult := fun _ _ _ => Except.ok ()
    sampleResult := fun ps _ => Except.ok ps
    encodeResult := fun r => Except.ok (encodeAnnouncerResponse r) }

/-- Ports whose repository Read fails after a successful Update. -/
def failPorts : Ports :=
  { emptyPorts with readResult := fun _ => Except.error "storage read failed" }

/-- The spec's concrete scenario: port 6881, ip 2130706433 (127.0.0.1),
downloaded 0, uploaded 0, left 1000, event started. -/
def qGood : AnnounceQuery :=
  { info_hash := [171], peer_id := [205], port := "6881", ip := "2130706433",
    dc := "dc1", downloaded := "0", uploaded := "0", left := "1000", event := "started" }

def qBadPort : AnnounceQuery := { qGood with port := "abc" }

def qNegPort : AnnounceQuery := { qGood with port := "-1" }

def qBigLeft : AnnounceQuery := { qGood with left := "18446744073709551615" }

def qEmptyKeys : AnnounceQuery := { qGood with info_hash := [], peer_id := [] }

/-- Under successful parses the handler is exactly the post-validation
pipeline applied to the constructed peer record. -/
theorem handler_eq_core (ports : Ports) (interval : Int) (q : AnnounceQuery)
    (pp ipw dl ul : Int) (lf : Nat)
    (hpp : parseIntW q.port 64 = some pp) (hip : parseIntW q.ip 32 = some ipw)
    (hdl : parseIntW q.downloaded 64 = some dl) (hul : parseIntW q.uploaded 64 = some ul)
    (hlf : parseUint64 q.left = some lf) :
    getAnnounceHandler ports interval q =
      announceCore ports interval (mkPeer q pp ipw dl ul lf) := by
  unfold getAnnounceHandler
  rw [hpp, hip, hdl, hul, hlf]

/-- Master case analysis of the post-validation pipeline: its full result
is one of five shapes, one per stage at which it can stop. -/
theorem announceCore_cases (ports : Ports) (interval : Int) (peer : PeerInfo) :
    (∃ e, ports.updateResult peer = Except.error e ∧
      announceCore ports interval peer =
        (⟨statusInternalServerError, e⟩, [Event.update peer])) ∨
    (∃ e, announceCore ports interval peer =
        (⟨statusInternalServerError, e⟩,
         [Event.update peer, Event.read peer.infoHash])) ∨
    (∃ e, announceCore ports interval peer =
        (⟨statusInternalServerError, e⟩,
         [Event.update peer, Event.read peer.infoHash,
          Event.assign peer.ip peer.dc])) ∨
    (∃ peers, ports.readResult peer.infoHash = Except.ok peers ∧
      ((∃ e, announceCore ports interval peer =
          (⟨statusInternalServerError, e⟩,
           [Event.update peer, Event.read peer.infoHash,
            Event.assign peer.ip peer.dc, Event.sample peers peers.length])) ∨
       (∃ body, announceCore ports interval peer =
          (⟨statusOK, body⟩,
           [Event.update peer, Event.read peer.infoHash,
            Event.assign peer.ip peer.dc, Event.sample peers peers.length])))) := by
  cases h1 : ports.updateResult peer with
  | error e => exact Or.inl ⟨e, rfl, by simp [announceCore, h1]⟩
  | ok u =>
    cases h2 : ports.readResult peer.infoHash with
    | error e => exact Or.inr (Or.inl ⟨e, by simp [announceCore, h1, h2]⟩)
    | ok peers =>
      cases h3 : ports.assignResult peer.ip peer.dc peers with
      | error e => exact Or.inr (Or.inr (Or.inl ⟨e, by simp [announceCore, h1, h2, h3]⟩))
      | ok u2 =>
        cases h4 : ports.sampleResult peers peers.length with
        | error e =>
          exact Or.inr (Or.inr (Or.inr ⟨peers, rfl,
            Or.inl ⟨"Could not apply peer handout sampling policy: " ++ e,
              by simp [announceCore, h1, h2, h3, h4]⟩⟩))
        | ok sampled =>
          cases h5 : ports.encodeResult ⟨interval, sampled⟩ with
          | error e =>
            exact Or.inr (Or.inr (Or.inr ⟨peers, rfl,
              Or.inl ⟨e, by simp [announceCore, h1, h2, h3, h4, h5]⟩⟩))
          | ok body =>
            exact Or.inr (Or.inr (Or.inr ⟨peers, rfl,
              Or.inr ⟨body, by simp [announceCore, h1, h2, h3, h4, h5]⟩⟩))

/-- The pipeline always calls Update first: the trace starts with the
update event for the given peer. -/
theorem announceCore_head (ports : Ports) (interval : Int) (peer : PeerInfo) :
    (announceCore ports interval peer).2.head? = some (Event.update peer) := by
  rcases announceCore_cases ports interval peer with ⟨e, _, h⟩ | ⟨e, h⟩ | ⟨e, h⟩ |
    ⟨peers, _, ⟨e, h⟩ | ⟨body, h⟩⟩ <;> rw [h] <;> rfl

/-- The pipeline calls Update exactly once. -/
theorem announceCore_updateCount (ports : Ports) (interval : Int) (peer : PeerInfo) :
    (announceCore ports interval peer).2.countP Event.isUpdate = 1 := by
  rcases announceCore_cases ports interval peer with ⟨e, _, h⟩ | ⟨e, h⟩ | ⟨e, h⟩ |
    ⟨peers, _, ⟨e, h⟩ | ⟨body, h⟩⟩ <;> rw [h] <;> rfl

/-- The pipeline trace is always an initial segment of the canonical call
sequence Update, Read, AssignPriority, Sample, for some swarm list. -/
theorem announceCore_trace_shape (ports : Ports) (interval : Int) (peer : PeerInfo) :
    ∃ peers : List PeerInfo,
      (announceCore ports interval peer).2 <+:
        [Event.update peer, Event.read peer.infoHash, Event.assign peer.ip peer.dc,
         Event.sample peers peers.length] := by
  rcases announceCore_cases ports interval peer with ⟨e, _, h⟩ | ⟨e, h⟩ | ⟨e, h⟩ |
    ⟨peers, _, ⟨e, h⟩ | ⟨body, h⟩⟩
  · exact ⟨[], by rw [h]; simp⟩
  · exact ⟨[], by rw [h]; simp⟩
  · exact ⟨[], by rw [h]; simp⟩
  · exact ⟨peers, by rw [h]⟩
  · exact ⟨peers, by rw [h]⟩

/-- The pipeline response status is either 200 or 500. -/
theorem announceCore_status (ports : Ports) (interval : Int) (peer : PeerInfo) :
    (announceCore ports interval peer).1.status = statusOK ∨
      (announceCore ports interval peer).1.status = statusInternalServerError := by
  rcases announceCore_cases ports interval peer with ⟨e, _, h⟩ | ⟨e, h⟩ | ⟨e, h⟩ |
    ⟨peers, _, ⟨e, h⟩ | ⟨body, h⟩⟩ <;> rw [h]
  · exact Or.inr rfl
  · exact Or.inr rfl
  · exact Or.inr rfl
  · exact Or.inr rfl
  · exact Or.inl rfl

/-- A failed parse of any numeric field short-circuits the handler: the
response status is 500 and no port call is made. -/
theorem handler_parseFail (ports : Ports) (interval : Int) (q : AnnounceQuery)
    (h : anyParseFails q = true) :
    (getAnnounceHandler ports interval q).1.status = statusInternalServerError ∧
      (getAnnounceHandler ports interval q).2 = [] := by
  unfold getAnnounceHandler
  cases hpp : parseIntW q.port 64 with
  | none => exact ⟨rfl, rfl⟩
  | some pp =>
    cases hip : parseIntW q.ip 32 with
    | none => exact ⟨rfl, rfl⟩
    | some ipw =>
      cases hdl : parseIntW q.downloaded 64 with
      | none => exact ⟨rfl, rfl⟩
      | some dl =>
        cases hul : parseIntW q.uploaded 64 with
        | none => exact ⟨rfl, rfl⟩
        | some ul =>
          cases hlf : parseUint64 q.left with
          | none => exact ⟨rfl, rfl⟩
          | some lf =>
            exfalso
            simp [anyParseFails, hpp, hip, hdl, hul, hlf] at h

/-- Extracting the parsed values from a well-formed query. -/
theorem wellFormedNums_exists (q : AnnounceQuery) (h : wellFormedNums q = true) :
    ∃ pp ipw dl ul lf, parseIntW q.port 64 = some pp ∧ parseIntW q.ip 32 = some ipw ∧
      parseIntW q.downloaded 64 = some dl ∧ parseIntW q.uploaded 64 = some ul ∧
      parseUint64 q.left = some lf := by
  simp only [wellFormedNums, Bool.and_eq_true, Option.isSome_iff_exists] at h
  obtain ⟨⟨⟨⟨⟨pp, hpp⟩, ⟨ipw, hip⟩⟩, ⟨dl, hdl⟩⟩, ⟨ul, hul⟩⟩, ⟨lf, hlf⟩⟩ := h
  exact ⟨pp, ipw, dl, ul, lf, hpp, hip, hdl, hul, hlf⟩

example : parseIntW "6881" 64 = some 6881 := by decide
example : parseIntW "abc" 64 = none := by decide
example : parseIntW "-1" 64 = some (-1) := by decide
example : parseIntW "2130706433" 32 = some 2130706433 := by decide
example : parseUint64 "18446744073709551615" = some 18446744073709551615 := by decide
example : parseUint64 "18446744073709551616" = none := by decide
example : int32toIPString 2130706433 = "127.0.0.1" := by decide
example : hexEncodeBytes [] = "" := by decide
example : hexEncodeBytes [171] = "ab" := by decide
example : (getAnnounceHandler emptyPorts 1800 qBadPort).1.status = 500 := by decide
example : (getAnnounceHandler emptyPorts 1800 qGood).1.status = 200 := by decide

/-- A peer record with every field populated, used to instantiate the
encoding claims. -/
def peerA : PeerInfo :=
  { infoHash := "4142", peerID := "4344", ip := "127.0.0.1", port := 6881,
    dc := "dc1", bytesUploaded := 10, bytesDownloaded := 20, bytesLeft := 30,
    event := "started" }

/-- Same protocol-visible fields as peerA, but different internal-only
fields (datacenter tag, byte counters, event, storage key). -/
def peerB : PeerInfo :=
  { peerA with
    infoHash := "9999"
    dc := "dc2"
    bytesUploaded := 0
    bytesDownloaded := 0
    bytesLeft := 0
    event := "stopped" }

/-- C1 counterexample: a request whose port does not parse is answered with
HTTP 500, which is not a 4xx-class status, refuting the claim that numeric
parse failures produce a client-error status. -/
theorem C1_counterexample :
    anyParseFails qBadPort = true ∧
    (getAnnounceHandler emptyPorts 1800 qBadPort).1.status = 500 ∧
    ¬(400 ≤ (getAnnounceHandler emptyPorts 1800 qBadPort).1.status ∧
      (getAnnounceHandler emptyPorts 1800 qBadPort).1.status < 500) := by
  decide

/-- C1 (amended): every announce request in which port, ip, downloaded,
uploaded, or left fails to parse is answered with HTTP 500
(StatusInternalServerError) carrying the error text, the same 5xx-class
status used for repository, policy, and encoding failures. -/
theorem C1_parse_failure_status (ports : Ports) (interval : Int) (q : AnnounceQuery)
    (h : anyParseFails q = true) :
    (getAnnounceHandler ports interval q).1.status = statusInternalServerError :=
  (handler_parseFail ports interval q h).1

/-- C1 witness: the amended claim at the concrete bad-port request. -/
theorem C1_witness :
    (getAnnounceHandler emptyPorts 1800 qBadPort).1.status = statusInternalServerError :=
  C1_parse_failure_status emptyPorts 1800 qBadPort (by decide)

/-- C2: when any numeric field fails to parse, the pipeline terminates
during validation with an empty call trace: zero repository Update/Read
calls and zero policy AssignPriority/Sample calls (and hence no PeerRecord
is ever handed to a port). -/
theorem C2_validation_short_circuit (ports : Ports) (interval : Int) (q : AnnounceQuery)
    (h : anyParseFails q = true) :
    (getAnnounceHandler ports interval q).2 = [] :=
  (handler_parseFail ports interval q h).2

/-- C2 witness: the concrete bad-port request produces no port calls. -/
theorem C2_witness : (getAnnounceHandler emptyPorts 1800 qBadPort).2 = [] :=
  C2_validation_short_circuit emptyPorts 1800 qBadPort (by decide)

/-- C3: when left parses as an unsigned 64-bit value above 2^63-1, the
stored PeerRecord's BytesLeft equals the two's-complement reinterpretation
(lf - 2^64, a negative int64), not a clamp and not an error: the record is
still handed to Update. -/
theorem C3_left_twos_complement (ports : Ports) (interval : Int) (q : AnnounceQuery)
    (lf : Nat) (hwf : wellFormedNums q = true) (hlf : parseUint64 q.left = some lf)
    (hbig : 2 ^ 63 ≤ lf) :
    ∃ p, (getAnnounceHandler ports interval q).2.head? = some (Event.update p) ∧
      p.bytesLeft = (lf : Int) - 2 ^ 64 := by
  obtain ⟨pp, ipw, dl, ul, lf2, hpp, hip, hdl, hul, hlf2⟩ := wellFormedNums_exists q hwf
  rw [hlf] at hlf2
  obtain rfl : lf = lf2 := Option.some_inj.mp hlf2
  refine ⟨mkPeer q pp ipw dl ul lf, ?_, ?_⟩
  · rw [handler_eq_core ports interval q pp ipw dl ul lf hpp hip hdl hul hlf]
    exact announceCore_head ports interval _
  · show int64ofUint64 lf = (lf : Int) - 2 ^ 64
    unfold int64ofUint64
    rw [if_neg (by omega)]

/-- C3 witness: left = 2^64 - 1 is stored as the int64 value -1. -/
theorem C3_witness :
    ∃ p, (getAnnounceHandler emptyPorts 1800 qBigLeft).2.head? = some (Event.update p) ∧
      p.bytesLeft = (18446744073709551615 : Int) - 2 ^ 64 :=
  C3_left_twos_complement emptyPorts 1800 qBigLeft 18446744073709551615
    (by decide) (by decide) (by decide)

/-- C4: for every well-formed announce request, Update is called exactly
once and is the first port call (so it precedes any Read), and the trace is
an initial segment of Update, Read, AssignPriority, Sample — in particular
AssignPriority always precedes Sample. -/
theorem C4_sequencing (ports : Ports) (interval : Int) (q : AnnounceQuery)
    (hwf : wellFormedNums q = true) :
    ∃ p peers,
      (getAnnounceHandler ports interval q).2.head? = some (Event.update p) ∧
      (getAnnounceHandler ports interval q).2.countP Event.isUpdate = 1 ∧
      (getAnnounceHandler ports interval q).2 <+:
        [Event.update p, Event.read p.infoHash, Event.assign p.ip p.dc,
         Event.sample peers peers.length] := by
  obtain ⟨pp, ipw, dl, ul, lf, hpp, hip, hdl, hul, hlf⟩ := wellFormedNums_exists q hwf
  rw [handler_eq_core ports interval q pp ipw dl ul lf hpp hip hdl hul hlf]
  obtain ⟨peers, hpre⟩ := announceCore_trace_shape ports interval (mkPeer q pp ipw dl ul lf)
  exact ⟨mkPeer q pp ipw dl ul lf, peers,
    announceCore_head ports interval _, announceCore_updateCount ports interval _, hpre⟩

/-- C4 witness: sequencing at the concrete well-formed request. -/
theorem C4_witness :
    ∃ p peers,
      (getAnnounceHandler emptyPorts 1800 qGood).2.head? = some (Event.update p) ∧
      (getAnnounceHandler emptyPorts 1800 qGood).2.countP Event.isUpdate = 1 ∧
      (getAnnounceHandler emptyPorts 1800 qGood).2 <+:
        [Event.update p, Event.read p.infoHash, Event.assign p.ip p.dc,
         Event.sample peers peers.length] :=
  C4_sequencing emptyPorts 1800 qGood (by decide)

/-- C5: the bencoded response is a function of the interval and the
protocol-visible peer fields alone (peer id, ip, port): two responses that
agree on those but differ arbitrarily in datacenter tags and byte counters
encode to the identical byte string, so internal-only fields are not
transmitted. -/
theorem C5_encoding_visible_fields_only (r1 r2 : AnnouncerResponse)
    (hint : r1.interval = r2.interval)
    (hp : List.Forall₂ visibleEq r1.peers r2.peers) :
    encodeAnnouncerResponse r1 = encodeAnnouncerResponse r2 := by
  have hmap : ∀ l1 l2 : List PeerInfo, List.Forall₂ visibleEq l1 l2 →
      l1.map encodePeer = l2.map encodePeer := by
    intro l1 l2 h
    induction h with
    | nil => rfl
    | cons hab htail ih =>
      obtain ⟨h1, h2, h3⟩ := hab
      simp only [List.map_cons, ih, List.cons.injEq, and_true]
      unfold encodePeer benString benInt
      rw [h1, h2, h3]
  unfold encodeAnnouncerResponse
  rw [hint, hmap r1.peers r2.peers hp]

/-- C5 witness: two concrete responses differing only in internal-only
fields have identical encodings. -/
theorem C5_witness :
    encodeAnnouncerResponse ⟨1800, [peerA]⟩ = encodeAnnouncerResponse ⟨1800, [peerB]⟩ :=
  C5_encoding_visible_fields_only ⟨1800, [peerA]⟩ ⟨1800, [peerB]⟩ rfl
    (List.Forall₂.cons ⟨rfl, rfl, rfl⟩ List.Forall₂.nil)

/-- C6 counterexample: the port field is parsed with ParseInt at 64 bits and
no sign check follows, so the request with port = -1 is not rejected: it
parses, the pipeline runs to a 200 response, and Update is called once —
refuting the claim that a negative port fails validation. -/
theorem C6_counterexample :
    parseIntW qNegPort.port 64 = some (-1) ∧
    (getAnnounceHandler emptyPorts 1800 qNegPort).1.status = statusOK ∧
    (getAnnounceHandler emptyPorts 1800 qNegPort).2.countP Event.isUpdate = 1 := by
  decide

/-- C6 (amended): the port field is accepted exactly when it parses as a
signed 64-bit integer; a negative port is accepted and stored as parsed,
not rejected as a validation failure. -/
theorem C6_port_signed_accepted (ports : Ports) (interval : Int) (q : AnnounceQuery)
    (n : Int) (hwf : wellFormedNums q = true) (hn : parseIntW q.port 64 = some n) :
    ∃ p, (getAnnounceHandler ports interval q).2.head? = some (Event.update p) ∧
      p.port = n := by
  obtain ⟨pp, ipw, dl, ul, lf, hpp, hip, hdl, hul, hlf⟩ := wellFormedNums_exists q hwf
  rw [hn] at hpp
  obtain rfl : n = pp := Option.some_inj.mp hpp
  refine ⟨mkPeer q n ipw dl ul lf, ?_, rfl⟩
  rw [handler_eq_core ports interval q n ipw dl ul lf hn hip hdl hul hlf]
  exact announceCore_head ports interval _

/-- C6 witness: the amended claim at the concrete negative-port request. -/
theorem C6_witness :
    ∃ p, (getAnnounceHandler emptyPorts 1800 qNegPort).2.head? = some (Event.update p) ∧
      p.port = -1 :=
  C6_port_signed_accepted emptyPorts 1800 qNegPort (-1) (by decide) (by decide)

/-- C7: with the other numeric fields well-formed, the ip field is accepted
exactly when it parses as a 32-bit signed integer: on failure the handler
stops with no port calls (no fallback to an observed source address, which
the model does not even receive), and on success the stored record's IP is
the dotted-decimal IPv4 decoding of the parsed integer. -/
theorem C7_ip_validation (ports : Ports) (interval : Int) (q : AnnounceQuery)
    (hpp : (parseIntW q.port 64).isSome = true)
    (hdl : (parseIntW q.downloaded 64).isSome = true)
    (hul : (parseIntW q.uploaded 64).isSome = true)
    (hlf : (parseUint64 q.left).isSome = true) :
    (parseIntW q.ip 32 = none →
      (getAnnounceHandler ports interval q).2 = [] ∧
      (getAnnounceHandler ports interval q).1.status = statusInternalServerError) ∧
    (∀ w, parseIntW q.ip 32 = some w →
      ∃ p, (getAnnounceHandler ports interval q).2.head? = some (Event.update p) ∧
        p.ip = int32toIPString w) := by
  constructor
  · intro hip
    have hfail : anyParseFails q = true := by
      simp [anyParseFails, hip]
    exact ⟨(handler_parseFail ports interval q hfail).2,
      (handler_parseFail ports interval q hfail).1⟩
  · intro w hip
    obtain ⟨pp, hppv⟩ := Option.isSome_iff_exists.mp hpp
    obtain ⟨dl, hdlv⟩ := Option.isSome_iff_exists.mp hdl
    obtain ⟨ul, hulv⟩ := Option.isSome_iff_exists.mp hul
    obtain ⟨lf, hlfv⟩ := Option.isSome_iff_exists.mp hlf
    rw [handler_eq_core ports interval q pp w dl ul lf hppv hip hdlv hulv hlfv]
    exact ⟨mkPeer q pp w dl ul lf, announceCore_head ports interval _, rfl⟩

/-- C7 witness: ip = 2130706433 is stored as 127.0.0.1 at the concrete
request. -/
theorem C7_witness :
    (∃ p, (getAnnounceHandler emptyPorts 1800 qGood).2.head? = some (Event.update p) ∧
      p.ip = int32toIPString 2130706433) ∧
    int32toIPString 2130706433 = "127.0.0.1" :=
  ⟨(C7_ip_validation emptyPorts 1800 qGood (by decide) (by decide) (by decide)
      (by decide)).2 2130706433 (by decide), by decide⟩

/-- C8: for a well-formed request whose repository Update succeeds, if the
handler does not answer 200 (some later stage failed), then the response is
a 500 server error and the trace still contains exactly one Update call and
exactly one Read call: no compensating repository call is issued and the
persisted record is not reverted. -/
theorem C8_no_rollback (ports : Ports) (interval : Int) (q : AnnounceQuery)
    (pp ipw dl ul : Int) (lf : Nat)
    (hpp : parseIntW q.port 64 = some pp) (hip : parseIntW q.ip 32 = some ipw)
    (hdl : parseIntW q.downloaded 64 = some dl) (hul : parseIntW q.uploaded 64 = some ul)
    (hlf : parseUint64 q.left = some lf)
    (hupd : ports.updateResult (mkPeer q pp ipw dl ul lf) = Except.ok ())
    (hfail : (getAnnounceHandler ports interval q).1.status ≠ statusOK) :
    (getAnnounceHandler ports interval q).1.status = statusInternalServerError ∧
    (getAnnounceHandler ports interval q).2.countP Event.isUpdate = 1 ∧
    (getAnnounceHandler ports interval q).2.countP Event.isRead = 1 ∧
    (getAnnounceHandler ports interval q).2.head? =
      some (Event.update (mkPeer q pp ipw dl ul lf)) := by
  rw [handler_eq_core ports interval q pp ipw dl ul lf hpp hip hdl hul hlf] at hfail ⊢
  rcases announceCore_cases ports interval (mkPeer q pp ipw dl ul lf) with
    ⟨e, herr, h⟩ | ⟨e, h⟩ | ⟨e, h⟩ | ⟨peers, _, ⟨e, h⟩ | ⟨body, h⟩⟩
  · rw [hupd] at herr
    exact absurd herr (by simp)
  · rw [h]
    exact ⟨rfl, rfl, rfl, rfl⟩
  · rw [h]
    exact ⟨rfl, rfl, rfl, rfl⟩
  · rw [h]
    exact ⟨rfl, rfl, rfl, rfl⟩
  · rw [h] at hfail
    exact absurd rfl hfail

/-- C8 witness: Update succeeds, Read fails; the response is 500 and the
trace is exactly one Update followed by one Read. -/
theorem C8_witness :
    (getAnnounceHandler failPorts 1800 qGood).1.status = statusInternalServerError ∧
    (getAnnounceHandler failPorts 1800 qGood).2.countP Event.isUpdate = 1 ∧
    (getAnnounceHandler failPorts 1800 qGood).2.countP Event.isRead = 1 ∧
    (getAnnounceHandler failPorts 1800 qGood).2.head? =
      some (Event.update (mkPeer qGood 6881 2130706433 0 0 1000)) :=
  C8_no_rollback failPorts 1800 qGood 6881 2130706433 0 0 1000
    (by decide) (by decide) (by decide) (by decide) (by decide) rfl (by decide)

/-- C9: whenever the pipeline reaches sampling, SamplePeers is invoked on
the peer list returned by Read with limit equal to that list's length;
nothing in the query (which carries no peer-count parameter) influences the
limit. -/
theorem C9_sample_limit (ports : Ports) (interval : Int) (q : AnnounceQuery)
    (pp ipw dl ul : Int) (lf : Nat) (peers : List PeerInfo)
    (hpp : parseIntW q.port 64 = some pp) (hip : parseIntW q.ip 32 = some ipw)
    (hdl : parseIntW q.downloaded 64 = some dl) (hul : parseIntW q.uploaded 64 = some ul)
    (hlf : parseUint64 q.left = some lf)
    (hupd : ports.updateResult (mkPeer q pp ipw dl ul lf) = Except.ok ())
    (hread : ports.readResult (mkPeer q pp ipw dl ul lf).infoHash = Except.ok peers)
    (hassign : ports.assignResult (mkPeer q pp ipw dl ul lf).ip
      (mkPeer q pp ipw dl ul lf).dc peers = Except.ok ()) :
    Event.sample peers peers.length ∈ (getAnnounceHandler ports interval q).2 := by
  rw [handler_eq_core ports interval q pp ipw dl ul lf hpp hip hdl hul hlf]
  cases h4 : ports.sampleResult peers peers.length with
  | error e => simp [announceCore, hupd, hread, hassign, h4]
  | ok sampled =>
    cases h5 : ports.encodeResult ⟨interval, sampled⟩ with
    | error e => simp [announceCore, hupd, hread, hassign, h4, h5]
    | ok body => simp [announceCore, hupd, hread, hassign, h4, h5]

/-- C9 witness: at the concrete request the swarm read returns the empty
list and Sample is called with limit 0, its length. -/
theorem C9_witness :
    Event.sample ([] : List PeerInfo) (List.length ([] : List PeerInfo)) ∈
      (getAnnounceHandler emptyPorts 1800 qGood).2 :=
  C9_sample_limit emptyPorts 1800 qGood 6881 2130706433 0 0 1000 []
    (by decide) (by decide) (by decide) (by decide) (by decide) rfl rfl rfl

/-- C10: a request with empty info_hash and peer_id passes validation: both
hex-encode to the empty string and the pipeline proceeds to Update with
that empty-keyed record. -/
theorem C10_empty_keys (ports : Ports) (interval : Int) (q : AnnounceQuery)
    (hih : q.info_hash = []) (hpid : q.peer_id = []) (hwf : wellFormedNums q = true) :
    ∃ p, (getAnnounceHandler ports interval q).2.head? = some (Event.update p) ∧
      p.infoHash = "" ∧ p.peerID = "" := by
  obtain ⟨pp, ipw, dl, ul, lf, hpp, hip, hdl, hul, hlf⟩ := wellFormedNums_exists q hwf
  refine ⟨mkPeer q pp ipw dl ul lf, ?_, ?_, ?_⟩
  · rw [handler_eq_core ports interval q pp ipw dl ul lf hpp hip hdl hul hlf]
    exact announceCore_head ports interval _
  · show hexEncodeBytes q.info_hash = ""
    rw [hih]
    rfl
  · show hexEncodeBytes q.peer_id = ""
    rw [hpid]
    rfl

/-- C10 witness: the concrete empty-key request reaches Update with an
empty-keyed record. -/
theorem C10_witness :
    ∃ p, (getAnnounceHandler emptyPorts 1800 qEmptyKeys).2.head? = some (Event.update p) ∧
      p.infoHash = "" ∧ p.peerID = "" :=
  C10_empty_keys emptyPorts 1800 qEmptyKeys rfl rfl (by decide)

end Kraken
